import Mathlib

/-!
Verification of the authentication/session subsystem of the dao-dash
repository against its natural-language specification.

The development shallowly embeds the three parallel backend variants:

* `Mongo`   — `server/services/authServiceMongo.ts` (`AuthServiceMongo`) and
  its routes in `server/routes/auth-mongo.ts`;
* `Backend` — `backend/src/services/authService.ts` (`AuthService`, the
  MongoDB/JWT variant with a zod-validated route file);
* `Express` — `backend-express/services/authService.ts` (the in-memory
  variant; its session handling follows the inline `sessions` map of the
  near-duplicate file shipped as `unnamed/part_012`).

Time is an abstract `Nat` tick passed explicitly to every operation that
reads the clock.  Random values (tokens, generated passwords, fresh ids)
are passed in as parameters, modelling the nondeterminism of
`Math.random` / `Date.now` / MongoDB ObjectId generation.
-/

/-- Closed role enumeration, `"admin" | "user" | "viewer"` in `shared/dao`. -/
inductive UserRole where
  | admin
  | user
  | viewer
deriving DecidableEq, Repr

/-- Modelled from the spec: the Password Hasher collaborator (bcrypt in
`authServiceMongo.ts`, whose implementation lives in the external
`bcryptjs` package).  Spec 4.1 requires an irreversible `hash` with
`verify(plaintext, hash) -> bool` that is true exactly on a match; we
model the hash as an injective tagging of the plaintext. -/
def bcryptHash (plain : String) : String :=
  "$2b$12$" ++ plain

/-- Modelled from the spec: `bcrypt.compare(candidate, hash)` succeeds iff
the candidate hashes to the stored hash. -/
def bcryptCompare (candidate hash : String) : Bool :=
  bcryptHash candidate == hash

/-- JWT payload `{ userId, iat, exp }` produced by `jwt.sign({ userId }, secret, { expiresIn })`. -/
structure JwtPayload where
  userId : Nat
  iat : Nat
  exp : Nat
deriving DecidableEq, Repr

/-- A structurally well-formed signed token; `sig` records which secret
signed it.  A malformed token is represented by `none` at use sites. -/
structure SignedToken where
  payload : JwtPayload
  sig : String
deriving DecidableEq, Repr

/-- The server signing secret (`JWT_SECRET` default in both JWT variants). -/
def jwtSecret : String :=
  "your-super-secret-jwt-key-change-in-production"

/-- Token lifetime (`JWT_EXPIRES_IN` default `7d`), in abstract minutes. -/
def jwtLifetime : Nat := 7 * 24 * 60

/-- Modelled from the spec: `jwt.sign({ userId }, secret, { expiresIn })`
(external `jsonwebtoken` package; spec 4.2: `issue(userId) -> token`
embeds an expiry and is signed with a server secret). -/
def jwtSign (secret : String) (userId : Nat) (now : Nat) : SignedToken :=
  { payload := { userId := userId, iat := now, exp := now + jwtLifetime }, sig := secret }

/-- Modelled from the spec: `jwt.verify(token, secret)` (external
`jsonwebtoken` package; spec 4.2: verification fails for malformed,
expired, or mis-signed tokens).  `none` input stands for a malformed
token string that does not decode. -/
def jwtVerify (secret : String) (t : Option SignedToken) (now : Nat) : Option Nat :=
  match t with
  | none => none
  | some tok =>
    if tok.sig == secret && decide (now < tok.payload.exp) then
      some tok.payload.userId
    else
      none

/-- JS `String.prototype.toLowerCase`, written over the character list so
that concrete states evaluate inside the kernel. -/
def strToLower (s : String) : String :=
  ⟨s.data.map Char.toLower⟩

/-- Replace the first element satisfying `p` by its image under `f`,
leaving the rest unchanged.  This models in-place mutation of the
document/object returned by a first-match lookup (`find` / `findOne` /
`findByIdAndUpdate`). -/
def setFirst (p : α → Bool) (f : α → α) : List α → List α
  | [] => []
  | x :: xs => if p x then f x :: xs else x :: setFirst p f xs

namespace Express

/-- In-memory user record (`User` entries of the `users` array in
`backend-express/services/authService.ts`). -/
structure EUser where
  id : String
  name : String
  email : String
  role : UserRole
  isActive : Bool
  lastLogin : Option Nat
deriving DecidableEq, Repr

/-- `AuthUser` view handed to sessions and callers. -/
structure AuthUser where
  id : String
  name : String
  email : String
  role : UserRole
deriving DecidableEq, Repr

/-- Entry of the module-level `resetTokens` array. -/
structure ResetToken where
  token : String
  email : String
  expiresAt : Nat
  used : Bool
deriving DecidableEq, Repr

/-- The module-level mutable state of the in-memory variant: the `users`
array, the `passwords` record (email to plaintext password), the
`resetTokens` array, and the token-to-identity session map (the inline
`sessions` map of the `part_012` duplicate; `backend-express` routes the
same calls through `SessionStore`). -/
structure St where
  users : List EUser
  passwords : List (String × String)
  resetTokens : List ResetToken
  sessions : List (String × AuthUser)
deriving DecidableEq, Repr

/-- JS object property assignment `m[k] = v` for a string-keyed record. -/
def setAssoc (k : String) (v : β) (l : List (String × β)) : List (String × β) :=
  (k, v) :: l.filter (fun q => q.1 ≠ k)

/-- JS `delete m[k]`. -/
def delAssoc (k : String) (l : List (String × β)) : List (String × β) :=
  l.filter (fun q => q.1 ≠ k)

def publicView (u : EUser) : AuthUser :=
  { id := u.id, name := u.name, email := u.email, role := u.role }

/-- `AuthService.login`: find an active user with the exact email, compare
the stored plaintext password, update `lastLogin`, create a session under
a fresh random token (`newTok` models the `token_...` string).  Both
failure causes throw the string `"Invalid credentials"`. -/
def login (s : St) (email password : String) (now : Nat) (newTok : String) :
    Except String (AuthUser × String) × St :=
  match s.users.find? (fun u => u.email == email && u.isActive) with
  | none => (.error "Invalid credentials", s)
  | some u =>
    if s.passwords.lookup email ≠ some password then
      (.error "Invalid credentials", s)
    else
      let au := publicView u
      (.ok (au, newTok),
        { s with
          users := setFirst (fun v => v.email == email && v.isActive)
            (fun v => { v with lastLogin := some now }) s.users
          sessions := setAssoc newTok au s.sessions })

/-- `AuthService.logout`: delete the session for the token. -/
def logout (s : St) (token : String) : Bool × St :=
  ((s.sessions.lookup token).isSome,
    { s with sessions := delAssoc token s.sessions })

/-- `AuthService.verifyToken` (session-directory variant): pure lookup in
the sessions map, no liveness check against the user record. -/
def verifyToken (s : St) (token : String) : Option AuthUser :=
  s.sessions.lookup token

/-- `AuthService.getAllUsers`: the active users. -/
def getAllUsers (s : St) : List EUser :=
  s.users.filter (fun u => u.isActive)

/-- `AuthService.getUserById`. -/
def getUserById (s : St) (id : String) : Option EUser :=
  s.users.find? (fun u => u.id == id && u.isActive)

/-- `AuthService.createUser`: no duplicate-email check; push the record
and set the fixed default password `"changeme123"`.  `newId` models
`Date.now().toString()`. -/
def createUser (s : St) (name email : String) (role : UserRole) (isActive : Bool)
    (newId : String) : EUser × St :=
  let newUser : EUser :=
    { id := newId, name := name, email := email, role := role,
      isActive := isActive, lastLogin := none }
  (newUser,
    { s with
      users := s.users ++ [newUser]
      passwords := setAssoc email "changeme123" s.passwords })

/-- `AuthService.updateUserRole`: first match by id, set the role. -/
def updateUserRole (s : St) (userId : String) (role : UserRole) : Option EUser × St :=
  match s.users.find? (fun u => u.id == userId) with
  | none => (none, s)
  | some u =>
    let users1 := setFirst (fun v => v.id == userId) (fun v => { v with role := role }) s.users
    (some { u with role := role }, { s with users := users1 })

/-- `AuthService.deactivateUser`: set `isActive` to false and delete every
session belonging to the user (`part_012` iterates the `sessions` map;
`backend-express` calls `SessionStore.deleteUserSessions`). -/
def deactivateUser (s : St) (userId : String) : Bool × St :=
  match s.users.find? (fun u => u.id == userId) with
  | none => (false, s)
  | some _ =>
    let users1 := setFirst (fun v => v.id == userId) (fun v => { v with isActive := false }) s.users
    let sessions1 := s.sessions.filter (fun q => q.2.id ≠ userId)
    (true, { s with users := users1, sessions := sessions1 })

/-- `AuthService.changePassword`: overwrite the password for the user
found by id. -/
def changePassword (s : St) (userId newPassword : String) : Bool × St :=
  match s.users.find? (fun u => u.id == userId) with
  | none => (false, s)
  | some u =>
    (true, { s with passwords := setAssoc u.email newPassword s.passwords })

/-- `AuthService.updateProfile`: on an email change, reject a collision
with any other record and move the password entry to the new key; then
set name and email on the record. -/
def updateProfile (s : St) (userId name email : String) :
    Except String (Option EUser) × St :=
  match s.users.find? (fun u => u.id == userId) with
  | none => (.ok none, s)
  | some u =>
    if email ≠ u.email then
      if (s.users.find? (fun v => v.email == email && v.id != userId)).isSome then
        (.error "Email already exists", s)
      else
        let moved :=
          match s.passwords.lookup u.email with
          | some pw => setAssoc email pw (delAssoc u.email s.passwords)
          | none => delAssoc u.email s.passwords
        let users1 :=
          setFirst (fun v => v.id == userId)
            (fun v => { v with name := name, email := email }) s.users
        (.ok (some { u with name := name, email := email }),
          { s with users := users1, passwords := moved })
    else
      let users1 :=
        setFirst (fun v => v.id == userId)
          (fun v => { v with name := name, email := email }) s.users
      (.ok (some { u with name := name, email := email }), { s with users := users1 })

/-- Reset-code lifetime: 15 abstract minutes. -/
def resetLifetime : Nat := 15

/-- `AuthService.generateResetToken`: only for an active user with the
email; remove the first existing entry for that email
(`findIndex` + `splice`), then push the fresh 6-digit `code` with a
15-minute expiry. -/
def generateResetToken (s : St) (email : String) (now : Nat) (code : String) :
    Option String × St :=
  match s.users.find? (fun u => u.email == email && u.isActive) with
  | none => (none, s)
  | some _ =>
    (some code,
      { s with resetTokens :=
          (s.resetTokens.eraseP (fun t => t.email == email)) ++
            [{ token := code, email := email, expiresAt := now + resetLifetime,
               used := false }] })

/-- `AuthService.verifyResetToken`: find an unused entry matching token
and email; absent means false; an expired match is spliced out of the
array before returning false. -/
def verifyResetToken (s : St) (token email : String) (now : Nat) : Bool × St :=
  match s.resetTokens.find? (fun t => t.token == token && t.email == email && !t.used) with
  | none => (false, s)
  | some rt =>
    if now > rt.expiresAt then
      (false, { s with resetTokens := s.resetTokens.erase rt })
    else
      (true, s)

/-- `AuthService.resetPasswordWithToken`: find an unused matching entry;
fail on absence or expiry (no mutation); fail if no active user holds the
email (no mutation); otherwise overwrite the password and splice the
entry out (it is marked used and immediately removed). -/
def resetPasswordWithToken (s : St) (token email newPassword : String) (now : Nat) :
    Bool × St :=
  match s.resetTokens.find? (fun t => t.token == token && t.email == email && !t.used) with
  | none => (false, s)
  | some rt =>
    if now > rt.expiresAt then
      (false, s)
    else
      match s.users.find? (fun u => u.email == email && u.isActive) with
      | none => (false, s)
      | some _ =>
        (true,
          { s with
            passwords := setAssoc email newPassword s.passwords
            resetTokens := s.resetTokens.erase rt })

/-- `AuthService.cleanExpiredTokens`. -/
def cleanExpiredTokens (s : St) (now : Nat) : St :=
  { s with resetTokens := s.resetTokens.filter (fun t => t.expiresAt > now) }

end Express

namespace Mongo

/-- MongoDB user document per the `userSchema` in
`server/services/authServiceMongo.ts`.  The schema lowercases the stored
email (`lowercase: true`); `id` models the unique `_id`; timestamps are
abstract `Nat` ticks. -/
structure MUser where
  id : Nat
  name : String
  email : String
  password : String
  role : UserRole
  isActive : Bool
  lastLogin : Option Nat
  createdAt : Nat
  updatedAt : Nat
  isTemporaryPassword : Bool
  temporaryPasswordExpires : Option Nat
  resetPasswordToken : Option String
  resetPasswordExpires : Option Nat
deriving DecidableEq, Repr

/-- The users collection. -/
abbrev Db := List MUser

/-- `AuthUser` view (`toAuthUserFormat`). -/
structure AuthUser where
  id : Nat
  name : String
  email : String
  role : UserRole
deriving DecidableEq, Repr

def toAuthUserFormat (u : MUser) : AuthUser :=
  { id := u.id, name := u.name, email := u.email, role := u.role }

/-- `userSchema.methods.isTemporaryPasswordExpired`: false unless the
temporary flag is set and an expiry is present; expired when the clock is
strictly past the expiry. -/
def isTemporaryPasswordExpired (u : MUser) (now : Nat) : Bool :=
  match u.isTemporaryPassword, u.temporaryPasswordExpires with
  | true, some e => decide (now > e)
  | _, _ => false

/-- `userSchema.methods.comparePassword` via bcrypt. -/
def comparePassword (u : MUser) (candidate : String) : Bool :=
  bcryptCompare candidate u.password

/-- `findOne({ email: strToLower emailCase(), isActive: true })`. -/
def findActiveByEmail (db : Db) (email : String) : Option MUser :=
  db.find? (fun u => u.email == strToLower email && u.isActive)

/-- `AuthServiceMongo.verifyToken`: `jwt.verify` under the server secret,
with every throw caught and turned into `null`. -/
def verifyToken (t : Option SignedToken) (now : Nat) : Option Nat :=
  jwtVerify jwtSecret t now

/-- `AuthResponse` of a successful login; `requiresPasswordChange` is
spread into the object exactly when the password is temporary. -/
structure AuthResponse where
  user : AuthUser
  token : SignedToken
  requiresPasswordChange : Bool
deriving DecidableEq, Repr

/-- The message thrown by `login` when the temporary password window has
closed. -/
def tempExpiredMsg : String :=
  "Temporary password has expired. Please request a password reset."

/-- `AuthServiceMongo.login`: look up an active user by lowercased email
(throw `"Invalid credentials"`), reject an expired temporary password with
its own message, compare the password (throw `"Invalid credentials"`),
then update `lastLogin` and issue a JWT. -/
def login (db : Db) (email password : String) (now : Nat) :
    Except String AuthResponse × Db :=
  match findActiveByEmail db email with
  | none => (.error "Invalid credentials", db)
  | some u =>
    if isTemporaryPasswordExpired u now then
      (.error tempExpiredMsg, db)
    else if ¬comparePassword u password then
      (.error "Invalid credentials", db)
    else
      let db1 := setFirst (fun v => v.email == strToLower email && v.isActive)
        (fun v => { v with lastLogin := some now }) db
      (.ok { user := toAuthUserFormat u, token := jwtSign jwtSecret u.id now,
             requiresPasswordChange := u.isTemporaryPassword }, db1)

/-- `AuthServiceMongo.getUserByToken`: verify the JWT, then load the user
by id and require the active flag; every failure is `null`. -/
def getUserByToken (db : Db) (t : Option SignedToken) (now : Nat) : Option AuthUser :=
  match verifyToken t now with
  | none => none
  | some uid =>
    match db.find? (fun u => u.id == uid) with
    | none => none
    | some u => if u.isActive then some (toAuthUserFormat u) else none

/-- `AuthServiceMongo.getAllUsers`: `find({ isActive: true })` sorted by
`createdAt` descending. -/
def getAllUsers (db : Db) : List MUser :=
  (db.filter (fun u => u.isActive)).mergeSort (fun a b => b.createdAt ≤ a.createdAt)

/-- Temporary-password lifetime: 24 hours in abstract minutes
(`markPasswordAsTemporary(24)`). -/
def tempLifetime : Nat := 24 * 60

/-- `AuthServiceMongo.createUser`: conflict when any record (active or
not) holds the lowercased email; otherwise append a new active document
whose password is the hashed generated temporary password, marked
temporary for 24 hours.  `tempPassword` models `generateRandomPassword()`
and `newId` the fresh `_id`. -/
def createUser (db : Db) (name email : String) (role : UserRole)
    (tempPassword : String) (newId : Nat) (now : Nat) :
    Except String (MUser × String) × Db :=
  match db.find? (fun u => u.email == strToLower email) with
  | some _ => (.error "User already exists", db)
  | none =>
    let newUser : MUser :=
      { id := newId, name := name, email := strToLower email,
        password := bcryptHash tempPassword, role := role, isActive := true,
        lastLogin := none, createdAt := now, updatedAt := now,
        isTemporaryPassword := true,
        temporaryPasswordExpires := some (now + tempLifetime),
        resetPasswordToken := none, resetPasswordExpires := none }
    (.ok (newUser, tempPassword), db ++ [newUser])

/-- `AuthServiceMongo.updateUserRole` via `findByIdAndUpdate`. -/
def updateUserRole (db : Db) (userId : Nat) (role : UserRole) (now : Nat) :
    Option MUser × Db :=
  match db.find? (fun u => u.id == userId) with
  | none => (none, db)
  | some u =>
    let db1 := setFirst (fun v => v.id == userId)
      (fun v => { v with role := role, updatedAt := now }) db
    (some { u with role := role, updatedAt := now }, db1)

/-- `AuthServiceMongo.deactivateUser` via `findByIdAndUpdate`
`{ isActive: false }`. -/
def deactivateUser (db : Db) (userId : Nat) (now : Nat) : Bool × Db :=
  match db.find? (fun u => u.id == userId) with
  | none => (false, db)
  | some _ =>
    let db1 := setFirst (fun v => v.id == userId)
      (fun v => { v with isActive := false, updatedAt := now }) db
    (true, db1)

/-- `AuthServiceMongo.changePassword`: set the (re-hashed) password and
clear the temporary-password status on the user found by id. -/
def changePassword (db : Db) (userId : Nat) (newPassword : String) (now : Nat) :
    Bool × Db :=
  match db.find? (fun u => u.id == userId) with
  | none => (false, db)
  | some _ =>
    let db1 := setFirst (fun v => v.id == userId)
      (fun v => { v with password := bcryptHash newPassword,
                         isTemporaryPassword := false,
                         temporaryPasswordExpires := none,
                         updatedAt := now }) db
    (true, db1)

/-- `AuthServiceMongo.updateProfile`: reject an email that another
document already holds; otherwise set name and lowercased email by id. -/
def updateProfile (db : Db) (userId : Nat) (name email : String) (now : Nat) :
    Except String (Option MUser) × Db :=
  match db.find? (fun u => u.id == userId) with
  | none => (.ok none, db)
  | some u =>
    if email ≠ u.email &&
        (db.find? (fun v => v.email == strToLower email && v.id != userId)).isSome then
      (.error "Email already exists", db)
    else
      let db1 := setFirst (fun v => v.id == userId)
        (fun v => { v with name := name, email := strToLower email, updatedAt := now }) db
      (.ok (some { u with name := name, email := strToLower email, updatedAt := now }), db1)

/-- `AuthServiceMongo.generateResetToken`: for an active user with the
email, overwrite `resetPasswordToken` with the fresh 6-digit `code` and
set a 15-minute expiry. -/
def generateResetToken (db : Db) (email : String) (now : Nat) (code : String) :
    Option String × Db :=
  match findActiveByEmail db email with
  | none => (none, db)
  | some _ =>
    let db1 := setFirst (fun v => v.email == strToLower email && v.isActive)
      (fun v => { v with resetPasswordToken := some code,
                         resetPasswordExpires := some (now + Express.resetLifetime) }) db
    (some code, db1)

/-- The query shared by `verifyResetToken` and `resetPasswordWithToken`:
email matches (lowercased), stored code matches, expiry strictly in the
future, user active. -/
def resetQuery (token email : String) (now : Nat) (u : MUser) : Bool :=
  u.email == strToLower email && u.resetPasswordToken == some token &&
    (match u.resetPasswordExpires with
     | some e => decide (e > now)
     | none => false) &&
    u.isActive

/-- `AuthServiceMongo.verifyResetToken`: pure query. -/
def verifyResetToken (db : Db) (token email : String) (now : Nat) : Bool :=
  (db.find? (resetQuery token email now)).isSome

/-- `AuthServiceMongo.resetPasswordWithToken`: on a query hit, replace the
password, clear the reset-token fields, and clear the temporary-password
status; on a miss return false without mutation. -/
def resetPasswordWithToken (db : Db) (token email newPassword : String) (now : Nat) :
    Bool × Db :=
  match db.find? (resetQuery token email now) with
  | none => (false, db)
  | some _ =>
    let db1 := setFirst (resetQuery token email now)
      (fun v => { v with password := bcryptHash newPassword,
                         resetPasswordToken := none, resetPasswordExpires := none,
                         isTemporaryPassword := false,
                         temporaryPasswordExpires := none,
                         updatedAt := now }) db
    (true, db1)

end Mongo

namespace Backend

/-- `AuthService.login` of `backend/src/services/authService.ts`: same
flow as the `AuthServiceMongo` variant (active lookup by lowercased
email, temporary-expiry check with its own message, bcrypt comparison,
`lastLogin` update, JWT issue). -/
def login (db : Mongo.Db) (email password : String) (now : Nat) :
    Except String Mongo.AuthResponse × Mongo.Db :=
  match Mongo.findActiveByEmail db email with
  | none => (.error "Invalid credentials", db)
  | some u =>
    if Mongo.isTemporaryPasswordExpired u now then
      (.error Mongo.tempExpiredMsg, db)
    else if ¬Mongo.comparePassword u password then
      (.error "Invalid credentials", db)
    else
      let db1 := setFirst (fun v => v.email == strToLower email && v.isActive)
        (fun v => { v with lastLogin := some now }) db
      (.ok { user := Mongo.toAuthUserFormat u, token := jwtSign jwtSecret u.id now,
             requiresPasswordChange := u.isTemporaryPassword }, db1)

/-- `AuthService.resetPasswordWithToken` of
`backend/src/services/authService.ts`: same query as the Mongo variant,
but on success it only replaces the password and clears the reset-token
fields — it leaves `isTemporaryPassword` and `temporaryPasswordExpires`
untouched. -/
def resetPasswordWithToken (db : Mongo.Db) (token email newPassword : String)
    (now : Nat) : Bool × Mongo.Db :=
  match db.find? (Mongo.resetQuery token email now) with
  | none => (false, db)
  | some _ =>
    let db1 := setFirst (Mongo.resetQuery token email now)
      (fun v => { v with password := bcryptHash newPassword,
                         resetPasswordToken := none,
                         resetPasswordExpires := none,
                         updatedAt := now }) db
    (true, db1)

end Backend

/-- HTTP-level outcome of a route handler: a JSON body or a status with
an error string. -/
inductive Http (α : Type) where
  | ok (body : α)
  | err (status : Nat) (msg : String)
deriving DecidableEq, Repr

namespace Mongo

/-- `POST /api/auth/login` in `server/routes/auth-mongo.ts`: 400 when
email or password is missing (falsy), otherwise the service result; a
thrown service error is surfaced as status 401 with `error.message`. -/
def loginRoute (db : Db) (email password : String) (now : Nat) :
    Http AuthResponse × Db :=
  if email = "" || password = "" then
    (.err 400 "Email and password are required", db)
  else
    match login db email password now with
    | (.error m, db1) => (.err 401 m, db1)
    | (.ok r, db1) => (.ok r, db1)

/-- Success body of `POST /api/auth/forgot-password`: the generic message
plus, only when `NODE_ENV === "development"` and a token was generated,
the `developmentToken` field. -/
structure ForgotResp where
  message : String
  developmentToken : Option String
deriving DecidableEq, Repr

/-- `POST /api/auth/forgot-password` in `server/routes/auth-mongo.ts`
(after its input-shape validation): always answer the generic success
message; spread `developmentToken` into the body exactly when running in
development mode and `generateResetToken` returned a code. -/
def forgotPasswordRoute (db : Db) (email : String) (devMode : Bool) (now : Nat)
    (code : String) : ForgotResp × Db :=
  let r := generateResetToken db email now code
  ({ message := "Si cet email existe, un code de réinitialisation a été envoyé.",
     developmentToken := if devMode then r.1 else none }, r.2)

end Mongo

/-- Mutating operations of `AuthServiceMongo`, used to quantify over the
requests a deployment may serve after a deactivation (the read-only
operations `getUserByToken`, `getAllUsers` and `verifyResetToken` do not
change the collection). -/
inductive MOp where
  | login (email password : String) (now : Nat)
  | createUser (name email : String) (role : UserRole) (tempPassword : String)
      (newId : Nat) (now : Nat)
  | updateUserRole (userId : Nat) (role : UserRole) (now : Nat)
  | deactivateUser (userId : Nat) (now : Nat)
  | changePassword (userId : Nat) (newPassword : String) (now : Nat)
  | updateProfile (userId : Nat) (name email : String) (now : Nat)
  | generateResetToken (email : String) (now : Nat) (code : String)
  | resetPasswordWithToken (token email newPassword : String) (now : Nat)
deriving DecidableEq, Repr

/-- Effect of one `AuthServiceMongo` request on the users collection. -/
def MStep (db : Mongo.Db) : MOp → Mongo.Db
  | .login e p n => (Mongo.login db e p n).2
  | .createUser nm e r tp i n => (Mongo.createUser db nm e r tp i n).2
  | .updateUserRole i r n => (Mongo.updateUserRole db i r n).2
  | .deactivateUser i n => (Mongo.deactivateUser db i n).2
  | .changePassword i p n => (Mongo.changePassword db i p n).2
  | .updateProfile i nm e n => (Mongo.updateProfile db i nm e n).2
  | .generateResetToken e n c => (Mongo.generateResetToken db e n c).2
  | .resetPasswordWithToken t e p n => (Mongo.resetPasswordWithToken db t e p n).2

/-- MongoDB assigns a fresh `_id` to every created document; an operation
trace respects this for `uid` when no `createUser` in it reuses `uid`. -/
def MOp.freshFor (uid : Nat) : MOp → Prop
  | .createUser _ _ _ _ newId _ => newId ≠ uid
  | _ => True

/-- Every document carrying the id is deactivated. -/
def MInactive (uid : Nat) (db : Mongo.Db) : Prop :=
  ∀ u ∈ db, u.id = uid → u.isActive = false

/-- Mutating operations of the in-memory `AuthService`. -/
inductive EOp where
  | login (email password : String) (now : Nat) (newTok : String)
  | logout (token : String)
  | createUser (name email : String) (role : UserRole) (isActive : Bool) (newId : String)
  | updateUserRole (userId : String) (role : UserRole)
  | deactivateUser (userId : String)
  | changePassword (userId newPassword : String)
  | updateProfile (userId name email : String)
  | generateResetToken (email : String) (now : Nat) (code : String)
  | verifyResetToken (token email : String) (now : Nat)
  | resetPasswordWithToken (token email newPassword : String) (now : Nat)
  | cleanExpiredTokens (now : Nat)
deriving DecidableEq, Repr

/-- Effect of one in-memory `AuthService` request on the module state. -/
def EStep (s : Express.St) : EOp → Express.St
  | .login e p n t => (Express.login s e p n t).2
  | .logout t => (Express.logout s t).2
  | .createUser nm e r a i => (Express.createUser s nm e r a i).2
  | .updateUserRole i r => (Express.updateUserRole s i r).2
  | .deactivateUser i => (Express.deactivateUser s i).2
  | .changePassword i p => (Express.changePassword s i p).2
  | .updateProfile i nm e => (Express.updateProfile s i nm e).2
  | .generateResetToken e n c => (Express.generateResetToken s e n c).2
  | .verifyResetToken t e n => (Express.verifyResetToken s t e n).2
  | .resetPasswordWithToken t e p n => (Express.resetPasswordWithToken s t e p n).2
  | .cleanExpiredTokens n => Express.cleanExpiredTokens s n

/-- `Date.now().toString()` ids are taken fresh; a trace respects this
for `uid` when no `createUser` in it reuses `uid`. -/
def EOp.freshFor (uid : String) : EOp → Prop
  | .createUser _ _ _ _ newId => newId ≠ uid
  | _ => True

/-- Every record carrying the id is deactivated, and no live session
belongs to it. -/
def EInactive (uid : String) (s : Express.St) : Prop :=
  (∀ u ∈ s.users, u.id = uid → u.isActive = false) ∧
    (∀ q ∈ s.sessions, (q : String × Express.AuthUser).2.id ≠ uid)

/-- A user whose admin-issued temporary password expired at tick 10. -/
def bobTemp : Mongo.MUser :=
  { id := 1, name := "Bob", email := "bob@x.com", password := bcryptHash "pw1",
    role := .user, isActive := true, lastLogin := none, createdAt := 0,
    updatedAt := 0, isTemporaryPassword := true,
    temporaryPasswordExpires := some 10, resetPasswordToken := none,
    resetPasswordExpires := none }

/-- Collection used to exercise the login failure causes. -/
def C1db : Mongo.Db := [bobTemp]

/-- In-memory state holding a live reset code for an email with no active
user (reachable: generate the code, then deactivate the user). -/
def C2st : Express.St :=
  { users := [], passwords := [("bob@x.com", "old")],
    resetTokens := [{ token := "111111", email := "bob@x.com", expiresAt := 100,
                      used := false }],
    sessions := [] }

/-- In-memory state for the reset-code regeneration scenario. -/
def C3st : Express.St :=
  { users := [{ id := "1", name := "Bob", email := "bob@x.com", role := .user,
                isActive := true, lastLogin := none }],
    passwords := [("bob@x.com", "old")], resetTokens := [], sessions := [] }

/-- Collection for the deactivation scenario: an active Bob and an active
admin. -/
def C4db : Mongo.Db :=
  [bobTemp,
   { id := 2, name := "Root", email := "admin@x.com", password := bcryptHash "a",
     role := .admin, isActive := true, lastLogin := none, createdAt := 0,
     updatedAt := 0, isTemporaryPassword := false, temporaryPasswordExpires := none,
     resetPasswordToken := none, resetPasswordExpires := none }]

/-- In-memory state where Bob holds a live session under token `tokB`. -/
def C4st : Express.St :=
  { users := [{ id := "1", name := "Bob", email := "bob@x.com", role := .user,
                isActive := true, lastLogin := none }],
    passwords := [("bob@x.com", "pw")], resetTokens := [],
    sessions := [("tokB", { id := "1", name := "Bob", email := "bob@x.com",
                            role := .user })] }

/-- An account in the locked state (expired temporary password) holding a
live reset code: temporary window closed at tick 10, reset code `123456`
valid until tick 100. -/
def bobLocked : Mongo.MUser :=
  { id := 1, name := "Bob", email := "bob@x.com", password := bcryptHash "temp0",
    role := .user, isActive := true, lastLogin := none, createdAt := 0,
    updatedAt := 0, isTemporaryPassword := true,
    temporaryPasswordExpires := some 10, resetPasswordToken := some "123456",
    resetPasswordExpires := some 100 }

/-- Collection for the reset-after-lock scenario. -/
def C5db : Mongo.Db := [bobLocked]

/-- Collection with one plain active user, for the forgot-password pair. -/
def C7db : Mongo.Db :=
  [{ id := 1, name := "Bob", email := "bob@x.com", password := bcryptHash "pw1",
     role := .user, isActive := true, lastLogin := none, createdAt := 0,
     updatedAt := 0, isTemporaryPassword := false, temporaryPasswordExpires := none,
     resetPasswordToken := none, resetPasswordExpires := none }]

/-- In-memory state seeded with the stock admin account. -/
def C8st : Express.St :=
  { users := [{ id := "1", name := "Admin User", email := "admin@2snd.fr",
                role := .admin, isActive := true, lastLogin := none }],
    passwords := [("admin@2snd.fr", "admin123")], resetTokens := [], sessions := [] }

/-- Mongo collection with one lowercase-email user, for the conflict
biconditional. -/
def C8db : Mongo.Db :=
  [{ id := 1, name := "Admin", email := "admin@2snd.fr", password := bcryptHash "a",
     role := .admin, isActive := false, lastLogin := none, createdAt := 0,
     updatedAt := 0, isTemporaryPassword := false, temporaryPasswordExpires := none,
     resetPasswordToken := none, resetPasswordExpires := none }]

/-- In-memory state holding one expired, unused reset code and an
unrelated live code for another email. -/
def C10st : Express.St :=
  { users := [{ id := "1", name := "Bob", email := "bob@x.com", role := .user,
                isActive := true, lastLogin := none }],
    passwords := [("bob@x.com", "pw")],
    resetTokens := [{ token := "222222", email := "carol@x.com", expiresAt := 500,
                      used := false },
                    { token := "111111", email := "bob@x.com", expiresAt := 20,
                      used := false }],
    sessions := [] }

/-- In-memory state with an active Bob holding a live reset code. -/
def C2wst : Express.St :=
  { users := [{ id := "1", name := "Bob", email := "bob@x.com", role := .user,
                isActive := true, lastLogin := none }],
    passwords := [("bob@x.com", "old")],
    resetTokens := [{ token := "333333", email := "bob@x.com", expiresAt := 100,
                      used := false }],
    sessions := [] }

/-- Mongo collection with one active user, for the regeneration
scenario. -/
def C3db : Mongo.Db :=
  [{ id := 1, name := "Bob", email := "bob@x.com", password := bcryptHash "pw",
     role := .user, isActive := true, lastLogin := none, createdAt := 0,
     updatedAt := 0, isTemporaryPassword := false, temporaryPasswordExpires := none,
     resetPasswordToken := none, resetPasswordExpires := none }]

/-- `AuthService.getAllUsers` of `backend/src/services/authService.ts`:
same query as the Mongo variant. -/
def Backend.getAllUsers (db : Mongo.Db) : List Mongo.MUser :=
  (db.filter (fun u => u.isActive)).mergeSort (fun a b => b.createdAt ≤ a.createdAt)

theorem mem_setFirst {p : α → Bool} {f : α → α} {l : List α} {x : α}
    (h : x ∈ setFirst p f l) : x ∈ l ∨ ∃ y, y ∈ l ∧ p y = true ∧ x = f y := by
  induction l with
  | nil => cases h
  | cons a as ih =>
    by_cases hp : p a
    · rw [setFirst, if_pos hp] at h
      rcases List.mem_cons.mp h with h | h
      · exact Or.inr ⟨a, List.mem_cons_self a as, hp, h⟩
      · exact Or.inl (List.mem_cons_of_mem a h)
    · rw [setFirst, if_neg hp] at h
      rcases List.mem_cons.mp h with h | h
      · exact Or.inl (h ▸ List.mem_cons_self a as)
      · rcases ih h with h | ⟨y, hy, hpy, hxy⟩
        · exact Or.inl (List.mem_cons_of_mem a h)
        · exact Or.inr ⟨y, List.mem_cons_of_mem a hy, hpy, hxy⟩

theorem mem_of_lookup_eq_some {β : Type} {l : List (String × β)} {k : String} {v : β}
    (h : l.lookup k = some v) : (k, v) ∈ l := by
  induction l with
  | nil => cases h
  | cons a as ih =>
    obtain ⟨k1, v1⟩ := a
    rw [List.lookup] at h
    split at h
    · cases h
      have : k = k1 := by
        rename_i hb
        exact eq_of_beq hb
      subst this
      exact List.mem_cons_self _ _
    · exact List.mem_cons_of_mem _ (ih h)

theorem filter_eraseP_eq_nil {l : List α} {p : α → Bool} (hc : l.countP p ≤ 1) :
    (l.eraseP p).filter p = [] := by
  induction l with
  | nil => rfl
  | cons a as ih =>
    by_cases hp : p a
    · rw [List.eraseP_cons_of_pos hp]
      rw [List.countP_cons_of_pos p as hp] at hc
      have h0 : as.countP p = 0 := by omega
      rw [List.filter_eq_nil_iff]
      intro x hx hpx
      rcases List.countP_eq_zero.mp h0 x hx hpx
    · rw [List.eraseP_cons_of_neg (by simpa using hp), List.filter_cons_of_neg
        (by simpa using hp)]
      rw [List.countP_cons_of_neg p as (by simpa using hp)] at hc
      exact ih hc

theorem filter_erase_eq_nil [DecidableEq α] {l : List α} {p : α → Bool} {x : α}
    (hx : x ∈ l) (hpx : p x = true) (hc : l.countP p ≤ 1) :
    (l.erase x).filter p = [] := by
  induction l with
  | nil => cases hx
  | cons a as ih =>
    by_cases hax : a = x
    · subst hax
      rw [List.erase_cons_head]
      rw [List.countP_cons_of_pos p as hpx] at hc
      have h0 : as.countP p = 0 := by omega
      rw [List.filter_eq_nil_iff]
      intro y hy hpy
      rcases List.countP_eq_zero.mp h0 y hy hpy
    · have hxas : x ∈ as := by
        rcases List.mem_cons.mp hx with h | h
        · exact absurd h.symm hax
        · exact h
      rw [List.erase_cons_tail (by simpa using fun h => hax (eq_of_beq h))]
      by_cases hpa : p a
      · exfalso
        have h1 : 0 < as.countP p :=
          List.countP_pos_iff.mpr ⟨x, hxas, hpx⟩
        rw [List.countP_cons_of_pos p as hpa] at hc
        omega
      · rw [List.filter_cons_of_neg (by simpa using hpa)]
        rw [List.countP_cons_of_neg p as (by simpa using hpa)] at hc
        exact ih hxas hc

/-- C9: `getAllUsers` returns exactly the user records whose `isActive`
flag is true — soft-deleted users stay in the store but never appear in
the listing — in the Mongo, backend and in-memory express variants. -/
theorem C9_getAllUsers_exactly_active (db : Mongo.Db) (s : Express.St)
    (u : Mongo.MUser) (v : Express.EUser) :
    (u ∈ Mongo.getAllUsers db ↔ u ∈ db ∧ u.isActive = true) ∧
    (u ∈ Backend.getAllUsers db ↔ u ∈ db ∧ u.isActive = true) ∧
    (v ∈ Express.getAllUsers s ↔ v ∈ s.users ∧ v.isActive = true) := by
  refine ⟨?_, ?_, ?_⟩
  · rw [Mongo.getAllUsers, List.Perm.mem_iff (List.mergeSort_perm _ _), List.mem_filter]
  · rw [Backend.getAllUsers, List.Perm.mem_iff (List.mergeSort_perm _ _), List.mem_filter]
  · rw [Express.getAllUsers, List.mem_filter]

/-- C6: `verifyToken` fails closed — a malformed, mis-signed, or expired
token each produce the same `none` result, and a `userId` comes back
exactly for a token signed with the server secret whose expiry lies
strictly in the future. -/
theorem C6_verifyToken_fails_closed (t : Option SignedToken) (now : Nat) :
    Mongo.verifyToken none now = none ∧
    (∀ st : SignedToken, st.sig ≠ jwtSecret → Mongo.verifyToken (some st) now = none) ∧
    (∀ st : SignedToken, st.payload.exp ≤ now → Mongo.verifyToken (some st) now = none) ∧
    (∀ uid : Nat, Mongo.verifyToken t now = some uid ↔
      ∃ st : SignedToken, t = some st ∧ st.sig = jwtSecret ∧ now < st.payload.exp ∧
        uid = st.payload.userId) := by
  refine ⟨rfl, ?_, ?_, ?_⟩
  · intro st h
    simp [Mongo.verifyToken, jwtVerify, h]
  · intro st h
    simp [Mongo.verifyToken, jwtVerify, Nat.not_lt.mpr h]
  · intro uid
    cases t with
    | none => simp [Mongo.verifyToken, jwtVerify]
    | some st =>
      by_cases h1 : st.sig = jwtSecret
      · by_cases h2 : now < st.payload.exp
        · have hcond : (st.sig == jwtSecret && decide (now < st.payload.exp)) = true := by
            simp [h1, h2]
          simp only [Mongo.verifyToken, jwtVerify, hcond, if_true]
          constructor
          · intro h
            exact ⟨st, rfl, h1, h2, (Option.some.injEq _ _ ▸ h).symm⟩
          · rintro ⟨st2, hst2, -, -, huid⟩
            cases hst2
            simp [huid]
        · simp [Mongo.verifyToken, jwtVerify, h2]
      · simp [Mongo.verifyToken, jwtVerify, h1]

/-- C6 witness: concrete mis-signed and expired tokens map to `none`,
and a freshly issued token verifies to its user id. -/
theorem C6_verifyToken_fails_closed_witness :
    Mongo.verifyToken (some ⟨⟨7, 0, 5⟩, "not-the-secret"⟩) 1 = none ∧
    Mongo.verifyToken (some ⟨⟨7, 0, 5⟩, jwtSecret⟩) 5 = none ∧
    Mongo.verifyToken (some (jwtSign jwtSecret 7 0)) 3 = some 7 := by
  refine ⟨(C6_verifyToken_fails_closed none 1).2.1 ⟨⟨7, 0, 5⟩, "not-the-secret"⟩
    (by decide), (C6_verifyToken_fails_closed none 5).2.2.1 ⟨⟨7, 0, 5⟩, jwtSecret⟩
    (by decide), ?_⟩
  exact ((C6_verifyToken_fails_closed (some (jwtSign jwtSecret 7 0)) 3).2.2.2 7).mpr
    ⟨jwtSign jwtSecret 7 0, rfl, rfl, by decide, rfl⟩

/-- C7 counterexample: in development mode (`NODE_ENV === "development"`),
the forgot-password success response for an email with an active user
carries the generated code in `developmentToken`, while the response for
an unknown email does not — the two success responses are not
byte-identical, revealing whether a code was generated. -/
theorem C7_counterexample :
    (Mongo.forgotPasswordRoute C7db "bob@x.com" true 0 "654321").1 ≠
      (Mongo.forgotPasswordRoute C7db "ghost@x.com" true 0 "654321").1 := by
  decide

/-- C7 amended: outside development mode the forgot-password success body
is one fixed constant — the generic message with no `developmentToken` —
for every store and every email, so existing and non-existing addresses
get byte-identical success responses. -/
theorem C7_forgot_password_indistinguishable (db : Mongo.Db) (email : String)
    (now : Nat) (code : String) :
    (Mongo.forgotPasswordRoute db email false now code).1 =
      { message := "Si cet email existe, un code de réinitialisation a été envoyé.",
        developmentToken := none } := by
  rfl

/-- C1 counterexample: through `POST /login` of `auth-mongo.ts` (which
answers 401 with `error.message`), the expired-temporary-password cause
surfaces its own message while an unknown email surfaces
`"Invalid credentials"` — the two failure causes are externally
distinguishable. -/
theorem C1_counterexample :
    (Mongo.loginRoute C1db "bob@x.com" "pw1" 50).1 = .err 401 Mongo.tempExpiredMsg ∧
    (Mongo.loginRoute C1db "nobody@x.com" "pw1" 50).1 = .err 401 "Invalid credentials" ∧
    Mongo.tempExpiredMsg ≠ "Invalid credentials" := by
  exact ⟨rfl, rfl, by decide⟩

/-- C1 amended: unknown/inactive email and wrong password both surface as
the generic 401 `"Invalid credentials"` and are indistinguishable, but an
expired temporary password surfaces as 401 with its own distinct message,
so that one cause is visible to the caller. -/
theorem C1_login_error_collapse (db : Mongo.Db) (email password : String)
    (now : Nat) (he : email ≠ "") (hp : password ≠ "") :
    (Mongo.findActiveByEmail db email = none →
      (Mongo.loginRoute db email password now).1 = .err 401 "Invalid credentials") ∧
    (∀ u, Mongo.findActiveByEmail db email = some u →
      Mongo.isTemporaryPasswordExpired u now = false →
      Mongo.comparePassword u password = false →
      (Mongo.loginRoute db email password now).1 = .err 401 "Invalid credentials") ∧
    (∀ u, Mongo.findActiveByEmail db email = some u →
      Mongo.isTemporaryPasswordExpired u now = true →
      (Mongo.loginRoute db email password now).1 = .err 401 Mongo.tempExpiredMsg) := by
  have hcond : (email = "" || password = "") = false := by
    simp [he, hp]
  refine ⟨?_, ?_, ?_⟩
  · intro hf
    simp [Mongo.loginRoute, hcond, Mongo.login, hf]
  · intro u hf ht hc
    simp [Mongo.loginRoute, hcond, Mongo.login, hf, ht, hc]
  · intro u hf ht
    simp [Mongo.loginRoute, hcond, Mongo.login, hf, ht]

/-- C1 witness: the three failure causes at concrete inputs — unknown
email, wrong password on a live account, and expired temporary
password. -/
theorem C1_login_error_collapse_witness :
    (Mongo.loginRoute C1db "ghost@x.com" "pw1" 50).1 = .err 401 "Invalid credentials" ∧
    (Mongo.loginRoute C1db "bob@x.com" "wrongpw" 5).1 = .err 401 "Invalid credentials" ∧
    (Mongo.loginRoute C1db "bob@x.com" "pw1" 50).1 = .err 401 Mongo.tempExpiredMsg := by
  refine ⟨(C1_login_error_collapse C1db "ghost@x.com" "pw1" 50 (by decide)
      (by decide)).1 rfl,
    (C1_login_error_collapse C1db "bob@x.com" "wrongpw" 5 (by decide)
      (by decide)).2.1 bobTemp rfl rfl rfl,
    (C1_login_error_collapse C1db "bob@x.com" "pw1" 50 (by decide)
      (by decide)).2.2 bobTemp rfl rfl⟩

/-- C8 counterexample: in the in-memory variant a record already holds
`admin@2snd.fr`, yet `createUser` with that same email does not fail with
a conflict — it appends a second record (and sets the fixed password
`changeme123`), refuting the biconditional for this variant. -/
theorem C8_counterexample :
    (C8st.users.find? (fun u => u.email == "admin@2snd.fr")).isSome = true ∧
    (Express.createUser C8st "Dup" "admin@2snd.fr" .user true "99").2.users.length =
      C8st.users.length + 1 := by
  exact ⟨rfl, rfl⟩

/-- C8 amended: in the MongoDB-backed variant, `createUser` fails with the
conflict error iff some record — active or inactive, emails compared
case-insensitively — holds the email, leaving the store unchanged, and on
success appends exactly one record with a generated temporary password;
the in-memory express variant performs no duplicate check and always
appends. -/
theorem C8_createUser_conflict (db : Mongo.Db) (name email : String)
    (role : UserRole) (pwd : String) (newId now : Nat)
    (hlow : ∀ u ∈ db, strToLower u.email = u.email) :
    ((∃ u ∈ db, strToLower u.email = strToLower email) →
      Mongo.createUser db name email role pwd newId now =
        (.error "User already exists", db)) ∧
    ((¬ ∃ u ∈ db, strToLower u.email = strToLower email) →
      ∃ nu : Mongo.MUser,
        Mongo.createUser db name email role pwd newId now = (.ok (nu, pwd), db ++ [nu]) ∧
        nu.email = strToLower email ∧ nu.isTemporaryPassword = true ∧
        nu.temporaryPasswordExpires = some (now + Mongo.tempLifetime) ∧
        nu.password = bcryptHash pwd ∧ nu.isActive = true) ∧
    (∀ (s : Express.St) (nm em : String) (rl : UserRole) (ia : Bool) (nid : String),
      (Express.createUser s nm em rl ia nid).2.users =
        s.users ++ [(Express.createUser s nm em rl ia nid).1]) := by
  refine ⟨?_, ?_, fun s nm em rl ia nid => rfl⟩
  · rintro ⟨u, hu, he⟩
    have hfound : (db.find? (fun v => v.email == strToLower email)).isSome := by
      rw [List.find?_isSome]
      refine ⟨u, hu, ?_⟩
      rw [beq_iff_eq]
      rw [← hlow u hu, he]
    rw [Mongo.createUser]
    obtain ⟨v, hv⟩ := Option.isSome_iff_exists.mp hfound
    rw [hv]
  · intro hno
    have hnone : db.find? (fun v => v.email == strToLower email) = none := by
      rw [List.find?_eq_none]
      intro v hv hbeq
      exact hno ⟨v, hv, by rw [hlow v hv, eq_of_beq hbeq]⟩
    rw [Mongo.createUser, hnone]
    exact ⟨_, rfl, rfl, rfl, rfl, rfl, rfl⟩

/-- C8 witness: the conflict fires for a differently-cased email held by
an inactive record, and the in-memory variant appends regardless. -/
theorem C8_createUser_conflict_witness :
    Mongo.createUser C8db "Dup" "Admin@2SND.fr" .user "tmp1" 9 3 =
      (.error "User already exists", C8db) ∧
    (Express.createUser C8st "Dup2" "admin@2snd.fr" .user true "99").2.users =
      C8st.users ++ [(Express.createUser C8st "Dup2" "admin@2snd.fr" .user true "99").1] := by
  refine ⟨(C8_createUser_conflict C8db "Dup" "Admin@2SND.fr" .user "tmp1" 9 3
      (by decide)).1 ?_,
    (C8_createUser_conflict C8db "x" "x@x.com" .user "p" 0 0 (by decide)).2.2 C8st
      "Dup2" "admin@2snd.fr" .user true "99"⟩
  refine ⟨_, List.mem_cons_self _ _, by decide⟩

/-- C5 (code bug in `backend/src/services/authService.ts`): for an account
whose temporary password expired at tick 10 and which holds a valid reset
code, `resetPasswordWithToken` succeeds, but the backend variant leaves
`isTemporaryPassword`/`temporaryPasswordExpires` set, so the next login
with the brand-new password is still rejected with the
temporary-password-expired error; the `AuthServiceMongo` sibling clears
the flags and the same login succeeds. -/
theorem C5_backend_reset_leaves_temp_flags :
    (Backend.resetPasswordWithToken C5db "123456" "bob@x.com" "NewPass1" 50).1 = true ∧
    (Backend.login (Backend.resetPasswordWithToken C5db "123456" "bob@x.com" "NewPass1" 50).2
      "bob@x.com" "NewPass1" 60).1 = .error Mongo.tempExpiredMsg ∧
    (Mongo.resetPasswordWithToken C5db "123456" "bob@x.com" "NewPass1" 50).1 = true ∧
    (Mongo.login (Mongo.resetPasswordWithToken C5db "123456" "bob@x.com" "NewPass1" 50).2
      "bob@x.com" "NewPass1" 60).1 =
      .ok { user := { id := 1, name := "Bob", email := "bob@x.com", role := .user },
            token := jwtSign jwtSecret 1 60, requiresPasswordChange := false } := by
  exact ⟨rfl, rfl, rfl, rfl⟩

/-- C10: when `verifyResetToken` of the in-memory variant finds a
matching unused code that has expired, it answers false and deletes the
stored entry as a side effect — afterwards the email has no outstanding
reset code at all (assuming the at-most-one-code-per-email invariant),
while users, passwords and sessions are untouched. -/
theorem C10_verifyResetToken_deletes_expired (s : Express.St) (token email : String)
    (now : Nat) (rt : Express.ResetToken)
    (hfind : s.resetTokens.find?
      (fun t => t.token == token && t.email == email && !t.used) = some rt)
    (hexp : now > rt.expiresAt)
    (hone : s.resetTokens.countP (fun t => t.email == email) ≤ 1) :
    (Express.verifyResetToken s token email now).1 = false ∧
    (Express.verifyResetToken s token email now).2.resetTokens.filter
      (fun t => t.email == email) = [] ∧
    (Express.verifyResetToken s token email now).2.users = s.users ∧
    (Express.verifyResetToken s token email now).2.passwords = s.passwords ∧
    (Express.verifyResetToken s token email now).2.sessions = s.sessions := by
  have hmem : rt ∈ s.resetTokens := List.mem_of_find?_eq_some hfind
  have hprt := List.find?_some hfind
  have hemail : (rt.email == email) = true := by
    simp only [Bool.and_eq_true] at hprt
    exact hprt.1.2
  have hres : Express.verifyResetToken s token email now =
      (false, { s with resetTokens := s.resetTokens.erase rt }) := by
    simp only [Express.verifyResetToken, hfind, if_pos hexp]
  rw [hres]
  exact ⟨rfl, filter_erase_eq_nil hmem hemail hone, rfl, rfl, rfl⟩

/-- C10 witness: Bob's code `111111` expired at tick 20; at tick 30 the
check answers false and leaves no entry for Bob, while Carol's unrelated
code stays. -/
theorem C10_verifyResetToken_deletes_expired_witness :
    (Express.verifyResetToken C10st "111111" "bob@x.com" 30).1 = false ∧
    (Express.verifyResetToken C10st "111111" "bob@x.com" 30).2.resetTokens.filter
      (fun t => t.email == "bob@x.com") = [] := by
  have h := C10_verifyResetToken_deletes_expired C10st "111111" "bob@x.com" 30
    { token := "111111", email := "bob@x.com", expiresAt := 20, used := false }
    rfl (by decide) (by decide)
  exact ⟨h.1, h.2.1⟩

/-- C2 counterexample: the store holds a matching, unexpired, not-yet-used
code for `bob@x.com`, but no active user holds that email (reachable by
generating the code and then deactivating the account); the call reports
failure and leaves the whole state unchanged, where the claim requires it
to replace the password and report success. -/
theorem C2_counterexample :
    C2st.resetTokens.find?
      (fun t => t.token == "111111" && t.email == "bob@x.com" && !t.used) =
      some { token := "111111", email := "bob@x.com", expiresAt := 100, used := false } ∧
    ¬ ((0:Nat) > 100) ∧
    Express.resetPasswordWithToken C2st "111111" "bob@x.com" "NewPass1" 0 =
      (false, C2st) := by
  exact ⟨rfl, by decide, rfl⟩

/-- C2 amended: when the store holds a matching, unexpired, not-yet-used
code for the email AND an active user holds that email, the call replaces
the password, removes the stored code and reports success; in every other
case — no matching unused code, expired code, or no active user — it
reports the same bare failure and leaves the state untouched. -/
theorem C2_resetPassword_check_and_clear (s : Express.St)
    (token email newPassword : String) (now : Nat) :
    (∀ rt, s.resetTokens.find?
        (fun t => t.token == token && t.email == email && !t.used) = some rt →
      ¬ now > rt.expiresAt →
      (s.users.find? (fun u => u.email == email && u.isActive)).isSome →
      (Express.resetPasswordWithToken s token email newPassword now).1 = true ∧
      (Express.resetPasswordWithToken s token email newPassword now).2.resetTokens =
        s.resetTokens.erase rt ∧
      (Express.resetPasswordWithToken s token email newPassword now).2.passwords.lookup
        email = some newPassword ∧
      (Express.resetPasswordWithToken s token email newPassword now).2.users = s.users ∧
      (Express.resetPasswordWithToken s token email newPassword now).2.sessions =
        s.sessions) ∧
    ((s.resetTokens.find?
        (fun t => t.token == token && t.email == email && !t.used) = none ∨
      (∃ rt, s.resetTokens.find?
        (fun t => t.token == token && t.email == email && !t.used) = some rt ∧
        now > rt.expiresAt) ∨
      s.users.find? (fun u => u.email == email && u.isActive) = none) →
      Express.resetPasswordWithToken s token email newPassword now = (false, s)) := by
  constructor
  · intro rt hfind hexp hus
    obtain ⟨u, hu⟩ := Option.isSome_iff_exists.mp hus
    have hres : Express.resetPasswordWithToken s token email newPassword now =
        (true, { s with passwords := Express.setAssoc email newPassword s.passwords,
                        resetTokens := s.resetTokens.erase rt }) := by
      simp only [Express.resetPasswordWithToken, hfind, if_neg hexp, hu]
    rw [hres]
    refine ⟨rfl, rfl, ?_, rfl, rfl⟩
    simp [Express.setAssoc, List.lookup]
  · rintro (h | ⟨rt, hfind, hexp⟩ | h)
    · simp only [Express.resetPasswordWithToken, h]
    · simp only [Express.resetPasswordWithToken, hfind, if_pos hexp]
    · cases hf : s.resetTokens.find?
        (fun t => t.token == token && t.email == email && !t.used) with
      | none => simp only [Express.resetPasswordWithToken, hf]
      | some rt =>
        by_cases hx : now > rt.expiresAt
        · simp only [Express.resetPasswordWithToken, hf, if_pos hx]
        · simp only [Express.resetPasswordWithToken, hf, if_neg hx, h]

/-- C2 witness: the reset succeeds for Bob's live code, and the same call
with a wrong code fails leaving the state unchanged. -/
theorem C2_resetPassword_check_and_clear_witness :
    (Express.resetPasswordWithToken C2wst "333333" "bob@x.com" "NewPass1" 10).1 = true ∧
    Express.resetPasswordWithToken C2wst "999999" "bob@x.com" "NewPass1" 10 =
      (false, C2wst) := by
  refine ⟨((C2_resetPassword_check_and_clear C2wst "333333" "bob@x.com" "NewPass1" 10).1
      { token := "333333", email := "bob@x.com", expiresAt := 100, used := false }
      rfl (by decide) (by decide)).1,
    (C2_resetPassword_check_and_clear C2wst "999999" "bob@x.com" "NewPass1" 10).2
      (Or.inl rfl)⟩

theorem filter_setFirst_of_countP_le_one {p : α → Bool} {f : α → α} {l : List α}
    (hpres : ∀ y, p (f y) = p y) (hc : l.countP p ≤ 1) :
    (setFirst p f l).filter p = (l.filter p).map f := by
  induction l with
  | nil => rfl
  | cons a as ih =>
    by_cases hp : p a
    · rw [setFirst, if_pos hp, List.filter_cons_of_pos (by rw [hpres a]; exact hp),
        List.filter_cons_of_pos hp]
      rw [List.countP_cons_of_pos p as hp] at hc
      have h0 : as.countP p = 0 := by omega
      have hnil : as.filter p = [] := by
        rw [List.filter_eq_nil_iff]
        intro x hx hpx
        rcases List.countP_eq_zero.mp h0 x hx hpx
      rw [hnil]
      rfl
    · rw [setFirst, if_neg hp, List.filter_cons_of_neg (by simpa using hp),
        List.filter_cons_of_neg (by simpa using hp)]
      rw [List.countP_cons_of_neg p as (by simpa using hp)] at hc
      exact ih hc

theorem express_generate_eq {s : Express.St} {email : String} {u : Express.EUser}
    (hu : s.users.find? (fun v => v.email == email && v.isActive) = some u)
    (n : Nat) (c : String) :
    Express.generateResetToken s email n c =
      (some c,
        { s with resetTokens := s.resetTokens.eraseP (fun t => t.email == email) ++
            [{ token := c, email := email, expiresAt := n + Express.resetLifetime,
               used := false }] }) := by
  simp only [Express.generateResetToken, hu]

theorem mongo_generate_eq {db : Mongo.Db} {email : String} {u : Mongo.MUser}
    (hu : Mongo.findActiveByEmail db email = some u) (n : Nat) (c : String) :
    Mongo.generateResetToken db email n c =
      (some c,
        setFirst (fun v => v.email == strToLower email && v.isActive)
          (fun v => { v with resetPasswordToken := some c,
                             resetPasswordExpires := some (n + Express.resetLifetime) })
          db) := by
  simp only [Mongo.generateResetToken, hu]

theorem mem_of_filter_eq {l r : List α} {p : α → Bool} {x : α}
    (hf : l.filter p = r) (hx : x ∈ l) (hpx : p x = true) : x ∈ r := by
  rw [← hf]
  exact List.mem_filter.mpr ⟨hx, hpx⟩

/-- C3: generating a reset code twice in a row for the same email leaves
exactly one live entry and makes the first code unverifiable, in the
in-memory variant (array of codes, previous entry spliced out) and in the
Mongo variant (the single per-document code field is overwritten), for
distinct fresh codes. -/
theorem C3_regenerate_invalidates_previous :
    (∀ (s : Express.St) (email : String) (n1 n2 n3 : Nat) (c1 c2 : String),
      (s.users.find? (fun u => u.email == email && u.isActive)).isSome →
      s.resetTokens.countP (fun t => t.email == email) ≤ 1 →
      c1 ≠ c2 →
      (Express.verifyResetToken
        (Express.generateResetToken
          (Express.generateResetToken s email n1 c1).2 email n2 c2).2
        c1 email n3).1 = false ∧
      (Express.generateResetToken
          (Express.generateResetToken s email n1 c1).2 email n2 c2).2.resetTokens.countP
        (fun t => t.email == email) = 1) ∧
    (∀ (db : Mongo.Db) (email : String) (n1 n2 n3 : Nat) (c1 c2 : String),
      (Mongo.findActiveByEmail db email).isSome →
      db.countP (fun u => u.email == strToLower email && u.isActive) ≤ 1 →
      c1 ≠ c2 →
      Mongo.verifyResetToken
        (Mongo.generateResetToken
          (Mongo.generateResetToken db email n1 c1).2 email n2 c2).2
        c1 email n3 = false) := by
  constructor
  · intro s email n1 n2 n3 c1 c2 huser hone hne
    obtain ⟨u, hu⟩ := Option.isSome_iff_exists.mp huser
    obtain ⟨rt1, hrt1⟩ : ∃ rt1 : Express.ResetToken,
        rt1 = { token := c1, email := email, expiresAt := n1 + Express.resetLifetime,
                used := false } := ⟨_, rfl⟩
    obtain ⟨rt2, hrt2⟩ : ∃ rt2 : Express.ResetToken,
        rt2 = { token := c2, email := email, expiresAt := n2 + Express.resetLifetime,
                used := false } := ⟨_, rfl⟩
    have e1 : (Express.generateResetToken s email n1 c1).2 =
        ({ users := s.users, passwords := s.passwords,
           resetTokens := s.resetTokens.eraseP
             (fun t : Express.ResetToken => t.email == email) ++ [rt1],
           sessions := s.sessions } : Express.St) := by
      rw [hrt1]
      exact congrArg Prod.snd (express_generate_eq hu n1 c1)
    have hu1 : (Express.generateResetToken s email n1 c1).2.users.find?
        (fun v => v.email == email && v.isActive) = some u := by
      rw [e1]
      exact hu
    have e2 : (Express.generateResetToken
        (Express.generateResetToken s email n1 c1).2 email n2 c2).2 =
        ({ users := s.users, passwords := s.passwords,
           resetTokens := (s.resetTokens.eraseP
               (fun t : Express.ResetToken => t.email == email) ++ [rt1]).eraseP
               (fun t : Express.ResetToken => t.email == email) ++ [rt2],
           sessions := s.sessions } : Express.St) := by
      have step := congrArg Prod.snd (express_generate_eq hu1 n2 c2)
      rw [step, e1, hrt2]
    have hprt1 : (rt1.email == email) = true := by
      rw [hrt1]
      exact beq_self_eq_true email
    have hprt2 : (rt2.email == email) = true := by
      rw [hrt2]
      exact beq_self_eq_true email
    have hfL1 : (s.resetTokens.eraseP
        (fun t : Express.ResetToken => t.email == email) ++ [rt1]).filter
        (fun t : Express.ResetToken => t.email == email) = [rt1] := by
      rw [List.filter_append, filter_eraseP_eq_nil hone]
      simp [hprt1]
    have hcL1 : (s.resetTokens.eraseP
        (fun t : Express.ResetToken => t.email == email) ++ [rt1]).countP
        (fun t : Express.ResetToken => t.email == email) = 1 := by
      rw [List.countP_eq_length_filter, hfL1]
      rfl
    have hfL2 : ((s.resetTokens.eraseP
        (fun t : Express.ResetToken => t.email == email) ++ [rt1]).eraseP
        (fun t : Express.ResetToken => t.email == email) ++ [rt2]).filter
        (fun t : Express.ResetToken => t.email == email) = [rt2] := by
      rw [List.filter_append, filter_eraseP_eq_nil (le_of_eq hcL1)]
      simp [hprt2]
    have hnone : ((s.resetTokens.eraseP
        (fun t : Express.ResetToken => t.email == email) ++ [rt1]).eraseP
        (fun t : Express.ResetToken => t.email == email) ++ [rt2]).find?
        (fun t : Express.ResetToken => t.token == c1 && t.email == email && !t.used) =
        none := by
      rw [List.find?_eq_none]
      intro t ht hq
      simp only [Bool.and_eq_true] at hq
      have hmem := mem_of_filter_eq hfL2 ht hq.1.2
      have ht2 := List.eq_of_mem_singleton hmem
      apply hne
      have htok := hq.1.1
      rw [ht2, hrt2] at htok
      exact (eq_of_beq htok).symm
    constructor
    · rw [e2]
      simp only [Express.verifyResetToken, hnone]
    · rw [e2]
      simp only [List.countP_eq_length_filter, hfL2, List.length_singleton]
  · intro db email n1 n2 n3 c1 c2 huser hone hne
    obtain ⟨u, hu⟩ := Option.isSome_iff_exists.mp huser
    have hufind : db.find? (fun v => v.email == strToLower email && v.isActive) =
        some u := hu
    have hpu := List.find?_some hufind
    have humem : u ∈ db := List.mem_of_find?_eq_some hufind
    have h1 : (Mongo.generateResetToken db email n1 c1).2 =
        setFirst (fun v : Mongo.MUser => v.email == strToLower email && v.isActive)
          (fun v : Mongo.MUser =>
            { v with resetPasswordToken := some c1,
                     resetPasswordExpires := some (n1 + Express.resetLifetime) })
          db :=
      congrArg Prod.snd (mongo_generate_eq hu n1 c1)
    have hf1 : (setFirst (fun v : Mongo.MUser => v.email == strToLower email && v.isActive)
        (fun v : Mongo.MUser =>
          { v with resetPasswordToken := some c1,
                   resetPasswordExpires := some (n1 + Express.resetLifetime) })
        db).filter (fun v : Mongo.MUser => v.email == strToLower email && v.isActive) =
        (db.filter (fun v : Mongo.MUser => v.email == strToLower email && v.isActive)).map
          (fun v : Mongo.MUser =>
            { v with resetPasswordToken := some c1,
                     resetPasswordExpires := some (n1 + Express.resetLifetime) }) :=
      filter_setFirst_of_countP_le_one (fun y => rfl) hone
    have hc1 : (setFirst (fun v : Mongo.MUser => v.email == strToLower email && v.isActive)
        (fun v : Mongo.MUser =>
          { v with resetPasswordToken := some c1,
                   resetPasswordExpires := some (n1 + Express.resetLifetime) })
        db).countP (fun v : Mongo.MUser => v.email == strToLower email && v.isActive) ≤ 1 := by
      rw [List.countP_eq_length_filter, hf1, List.length_map,
        ← List.countP_eq_length_filter]
      exact hone
    have hu1 : (Mongo.findActiveByEmail (Mongo.generateResetToken db email n1 c1).2
        email).isSome := by
      rw [Mongo.findActiveByEmail, h1, List.find?_isSome]
      refine ⟨{ u with resetPasswordToken := some c1,
                       resetPasswordExpires := some (n1 + Express.resetLifetime) },
        ?_, hpu⟩
      have hmem : ({ u with resetPasswordToken := some c1, resetPasswordExpires := some (n1 + Express.resetLifetime) } : Mongo.MUser) ∈
          (setFirst (fun v : Mongo.MUser => v.email == strToLower email && v.isActive)
            (fun v : Mongo.MUser =>
              { v with resetPasswordToken := some c1,
                       resetPasswordExpires := some (n1 + Express.resetLifetime) })
            db).filter
            (fun v : Mongo.MUser => v.email == strToLower email && v.isActive) := by
        rw [hf1]
        exact List.mem_map.mpr ⟨u, List.mem_filter.mpr ⟨humem, hpu⟩, rfl⟩
      exact (List.mem_filter.mp hmem).1
    obtain ⟨u1, hu1e⟩ := Option.isSome_iff_exists.mp hu1
    have h2 : (Mongo.generateResetToken
        (Mongo.generateResetToken db email n1 c1).2 email n2 c2).2 =
        setFirst (fun v : Mongo.MUser => v.email == strToLower email && v.isActive)
          (fun v : Mongo.MUser =>
            { v with resetPasswordToken := some c2,
                     resetPasswordExpires := some (n2 + Express.resetLifetime) })
          (setFirst (fun v : Mongo.MUser => v.email == strToLower email && v.isActive)
            (fun v : Mongo.MUser =>
              { v with resetPasswordToken := some c1,
                       resetPasswordExpires := some (n1 + Express.resetLifetime) })
            db) := by
      have step := congrArg Prod.snd (mongo_generate_eq hu1e n2 c2)
      rw [step, h1]
    have hf2 : (setFirst (fun v : Mongo.MUser => v.email == strToLower email && v.isActive)
        (fun v : Mongo.MUser =>
          { v with resetPasswordToken := some c2,
                   resetPasswordExpires := some (n2 + Express.resetLifetime) })
        (setFirst (fun v : Mongo.MUser => v.email == strToLower email && v.isActive)
          (fun v : Mongo.MUser =>
            { v with resetPasswordToken := some c1,
                     resetPasswordExpires := some (n1 + Express.resetLifetime) })
          db)).filter (fun v : Mongo.MUser => v.email == strToLower email && v.isActive) =
        ((setFirst (fun v : Mongo.MUser => v.email == strToLower email && v.isActive)
          (fun v : Mongo.MUser =>
            { v with resetPasswordToken := some c1,
                     resetPasswordExpires := some (n1 + Express.resetLifetime) })
          db).filter
          (fun v : Mongo.MUser => v.email == strToLower email && v.isActive)).map
          (fun v : Mongo.MUser =>
            { v with resetPasswordToken := some c2,
                     resetPasswordExpires := some (n2 + Express.resetLifetime) }) :=
      filter_setFirst_of_countP_le_one (fun y => rfl) hc1
    have hnone : (setFirst (fun v : Mongo.MUser => v.email == strToLower email && v.isActive)
        (fun v : Mongo.MUser =>
          { v with resetPasswordToken := some c2,
                   resetPasswordExpires := some (n2 + Express.resetLifetime) })
        (setFirst (fun v : Mongo.MUser => v.email == strToLower email && v.isActive)
          (fun v : Mongo.MUser =>
            { v with resetPasswordToken := some c1,
                     resetPasswordExpires := some (n1 + Express.resetLifetime) })
          db)).find? (Mongo.resetQuery c1 email n3) = none := by
      rw [List.find?_eq_none]
      intro x hx hq
      simp only [Mongo.resetQuery, Bool.and_eq_true] at hq
      have hpx : (x.email == strToLower email && x.isActive) = true := by
        simp only [Bool.and_eq_true]
        exact ⟨hq.1.1.1, hq.2⟩
      have hmem := mem_of_filter_eq hf2 hx hpx
      obtain ⟨y, -, hy⟩ := List.mem_map.mp hmem
      have hxtok : x.resetPasswordToken = some c2 := by
        rw [← hy]
      have htok := hq.1.1.2
      rw [hxtok] at htok
      exact hne (Option.some_inj.mp (eq_of_beq htok)).symm
    rw [h2]
    simp only [Mongo.verifyResetToken, hnone, Option.isSome_none]

/-- C3 witness: regenerating the code for Bob makes the first code
`111111` unverifiable in both variants once `222222` has been issued. -/
theorem C3_regenerate_invalidates_previous_witness :
    (Express.verifyResetToken
      (Express.generateResetToken
        (Express.generateResetToken C3st "bob@x.com" 0 "111111").2
        "bob@x.com" 1 "222222").2
      "111111" "bob@x.com" 2).1 = false ∧
    Mongo.verifyResetToken
      (Mongo.generateResetToken
        (Mongo.generateResetToken C3db "bob@x.com" 0 "111111").2
        "bob@x.com" 1 "222222").2
      "111111" "bob@x.com" 2 = false := by
  refine ⟨(C3_regenerate_invalidates_previous.1 C3st "bob@x.com" 0 1 2 "111111" "222222"
      (by decide) (by decide) (by decide)).1,
    C3_regenerate_invalidates_previous.2 C3db "bob@x.com" 0 1 2 "111111" "222222"
      (by decide) (by decide) (by decide)⟩

theorem MInactive_setFirst {uid : Nat} {db : Mongo.Db} {p : Mongo.MUser → Bool}
    {f : Mongo.MUser → Mongo.MUser} (h : MInactive uid db)
    (hf : ∀ y, (f y).id = y.id ∧ ((f y).isActive = true → y.isActive = true)) :
    MInactive uid (setFirst p f db) := by
  intro x hx hid
  rcases mem_setFirst hx with hx | ⟨y, hy, -, rfl⟩
  · exact h x hx hid
  · rcases Bool.eq_false_or_eq_true (f y).isActive with hb | hb
    swap
    · exact hb
    · have hy2 := (hf y).2 hb
      have hyf : y.isActive = false := h y hy (by rw [← (hf y).1]; exact hid)
      rw [hyf] at hy2
      cases hy2

theorem inactive_after_setFirst_deactivate {κ : Type} [BEq κ] [LawfulBEq κ]
    {α : Type} (key : α → κ) (act : α → Bool) (f : α → α) {l : List α} {k : κ}
    (hnodup : (l.map key).Nodup)
    (hf : ∀ y, key (f y) = key y ∧ act (f y) = false) :
    ∀ x ∈ setFirst (fun v => key v == k) f l, key x = k → act x = false := by
  induction l with
  | nil =>
    intro x hx
    cases hx
  | cons a as ih =>
    rw [List.map_cons, List.nodup_cons] at hnodup
    by_cases hp : (key a == k) = true
    · rw [setFirst, if_pos hp]
      intro x hx hkx
      rcases List.mem_cons.mp hx with rfl | hx
      · exact (hf a).2
      · exfalso
        apply hnodup.1
        exact List.mem_map.mpr ⟨x, hx, hkx.trans (eq_of_beq hp).symm⟩
    · rw [setFirst, if_neg hp]
      intro x hx hkx
      rcases List.mem_cons.mp hx with rfl | hx
      · exact absurd (beq_iff_eq.mpr hkx) hp
      · exact ih hnodup.2 x hx hkx

theorem MInactive_step {uid : Nat} {db : Mongo.Db} {op : MOp}
    (h : MInactive uid db) (hfresh : op.freshFor uid) :
    MInactive uid (MStep db op) := by
  cases op with
  | login e p n =>
    show MInactive uid (Mongo.login db e p n).2
    cases hfind : Mongo.findActiveByEmail db e with
    | none =>
      simp only [Mongo.login, hfind]
      exact h
    | some u =>
      simp only [Mongo.login, hfind]
      split
      · exact h
      · split
        · exact h
        · exact MInactive_setFirst h (fun y => ⟨rfl, fun hb => hb⟩)
  | createUser nm e r tp i n =>
    show MInactive uid (Mongo.createUser db nm e r tp i n).2
    cases hfind : db.find? (fun u => u.email == strToLower e) with
    | some u =>
      simp only [Mongo.createUser, hfind]
      exact h
    | none =>
      simp only [Mongo.createUser, hfind]
      intro x hx hid
      rcases List.mem_append.mp hx with hx | hx
      · exact h x hx hid
      · have hxe := List.eq_of_mem_singleton hx
        subst hxe
        exact absurd hid hfresh
  | updateUserRole i r n =>
    show MInactive uid (Mongo.updateUserRole db i r n).2
    cases hfind : db.find? (fun u => u.id == i) with
    | none =>
      simp only [Mongo.updateUserRole, hfind]
      exact h
    | some u =>
      simp only [Mongo.updateUserRole, hfind]
      exact MInactive_setFirst h (fun y => ⟨rfl, fun hb => hb⟩)
  | deactivateUser i n =>
    show MInactive uid (Mongo.deactivateUser db i n).2
    cases hfind : db.find? (fun u => u.id == i) with
    | none =>
      simp only [Mongo.deactivateUser, hfind]
      exact h
    | some u =>
      simp only [Mongo.deactivateUser, hfind]
      exact MInactive_setFirst h (fun y => ⟨rfl, fun hb => by cases hb⟩)
  | changePassword i p n =>
    show MInactive uid (Mongo.changePassword db i p n).2
    cases hfind : db.find? (fun u => u.id == i) with
    | none =>
      simp only [Mongo.changePassword, hfind]
      exact h
    | some u =>
      simp only [Mongo.changePassword, hfind]
      exact MInactive_setFirst h (fun y => ⟨rfl, fun hb => hb⟩)
  | updateProfile i nm e n =>
    show MInactive uid (Mongo.updateProfile db i nm e n).2
    cases hfind : db.find? (fun u => u.id == i) with
    | none =>
      simp only [Mongo.updateProfile, hfind]
      exact h
    | some u =>
      simp only [Mongo.updateProfile, hfind]
      split
      · exact h
      · exact MInactive_setFirst h (fun y => ⟨rfl, fun hb => hb⟩)
  | generateResetToken e n c =>
    show MInactive uid (Mongo.generateResetToken db e n c).2
    cases hfind : Mongo.findActiveByEmail db e with
    | none =>
      simp only [Mongo.generateResetToken, hfind]
      exact h
    | some u =>
      simp only [Mongo.generateResetToken, hfind]
      exact MInactive_setFirst h (fun y => ⟨rfl, fun hb => hb⟩)
  | resetPasswordWithToken t e p n =>
    show MInactive uid (Mongo.resetPasswordWithToken db t e p n).2
    cases hfind : db.find? (Mongo.resetQuery t e n) with
    | none =>
      simp only [Mongo.resetPasswordWithToken, hfind]
      exact h
    | some u =>
      simp only [Mongo.resetPasswordWithToken, hfind]
      exact MInactive_setFirst h (fun y => ⟨rfl, fun hb => hb⟩)

theorem MInactive_foldl {uid : Nat} {ops : List MOp} {db : Mongo.Db}
    (h : MInactive uid db) (hfresh : ∀ op ∈ ops, op.freshFor uid) :
    MInactive uid (ops.foldl MStep db) := by
  induction ops generalizing db with
  | nil => exact h
  | cons op ops ih =>
    exact ih (MInactive_step h (hfresh op (List.mem_cons_self op ops)))
      (fun o ho => hfresh o (List.mem_cons_of_mem op ho))

theorem MInactive_after_deactivate {db : Mongo.Db} {uid : Nat} {now : Nat}
    (hnodup : (db.map (fun u => u.id)).Nodup)
    (hsucc : (Mongo.deactivateUser db uid now).1 = true) :
    MInactive uid (Mongo.deactivateUser db uid now).2 := by
  cases hfind : db.find? (fun u => u.id == uid) with
  | none =>
    exfalso
    rw [Mongo.deactivateUser] at hsucc
    simp only [hfind] at hsucc
    cases hsucc
  | some u =>
    simp only [Mongo.deactivateUser, hfind]
    intro x hx hid
    exact inactive_after_setFirst_deactivate (fun u : Mongo.MUser => u.id)
      (fun u : Mongo.MUser => u.isActive)
      (fun v : Mongo.MUser => { v with isActive := false, updatedAt := now })
      hnodup (fun y => ⟨rfl, rfl⟩) x hx hid

theorem getUserByToken_none_of_MInactive {db : Mongo.Db} {uid : Nat}
    (h : MInactive uid db) (st : SignedToken) (hst : st.payload.userId = uid)
    (later : Nat) : Mongo.getUserByToken db (some st) later = none := by
  cases hv : Mongo.verifyToken (some st) later with
  | none => simp [Mongo.getUserByToken, hv]
  | some uid2 =>
    have huid2 : uid2 = uid := by
      rw [Mongo.verifyToken, jwtVerify] at hv
      split at hv
      · rw [← hst]
        exact (Option.some_inj.mp hv).symm
      · cases hv
    cases hfind : db.find? (fun u => u.id == uid2) with
    | none => simp [Mongo.getUserByToken, hv, hfind]
    | some u =>
      have hu : u.isActive = false := by
        apply h u (List.mem_of_find?_eq_some hfind)
        have hb := List.find?_some hfind
        rw [← huid2]
        exact eq_of_beq hb
      simp [Mongo.getUserByToken, hv, hfind, hu]

theorem inactive_setFirst_generic {α : Type} {κ : Type} (key : α → κ) (act : α → Bool)
    {k : κ} {l : List α} {p : α → Bool} {f : α → α}
    (h : ∀ u ∈ l, key u = k → act u = false)
    (hf : ∀ y, key (f y) = key y ∧ (act (f y) = true → act y = true)) :
    ∀ u ∈ setFirst p f l, key u = k → act u = false := by
  intro x hx hid
  rcases mem_setFirst hx with hx | ⟨y, hy, -, rfl⟩
  · exact h x hx hid
  · rcases Bool.eq_false_or_eq_true (act (f y)) with hb | hb
    swap
    · exact hb
    · have hy2 := (hf y).2 hb
      have hyf : act y = false := h y hy (by rw [← (hf y).1]; exact hid)
      rw [hyf] at hy2
      cases hy2

theorem EInactive_sessions_filter {uid : String} {s : List (String × Express.AuthUser)}
    {p : String × Express.AuthUser → Bool}
    (h : ∀ q ∈ s, (q : String × Express.AuthUser).2.id ≠ uid) :
    ∀ q ∈ s.filter p, (q : String × Express.AuthUser).2.id ≠ uid :=
  fun q hq => h q (List.mem_of_mem_filter hq)

theorem EInactive_step {uid : String} {s : Express.St} {op : EOp}
    (h : EInactive uid s) (hfresh : op.freshFor uid) :
    EInactive uid (EStep s op) := by
  obtain ⟨hu, hs⟩ := h
  cases op with
  | login e p n t =>
    show EInactive uid (Express.login s e p n t).2
    cases hfind : s.users.find? (fun u => u.email == e && u.isActive) with
    | none =>
      simp only [Express.login, hfind]
      exact ⟨hu, hs⟩
    | some u =>
      simp only [Express.login, hfind]
      split
      · exact ⟨hu, hs⟩
      · have huid : u.id ≠ uid := by
          intro hid
          have hb := List.find?_some hfind
          simp only [Bool.and_eq_true] at hb
          have := hu u (List.mem_of_find?_eq_some hfind) hid
          rw [this] at hb
          cases hb.2
        refine ⟨?_, ?_⟩
        · exact inactive_setFirst_generic (fun u : Express.EUser => u.id)
            (fun u : Express.EUser => u.isActive) hu (fun y => ⟨rfl, fun hb => hb⟩)
        · intro q hq
          rcases List.mem_cons.mp hq with rfl | hq
          · exact huid
          · exact hs q (List.mem_of_mem_filter hq)
  | logout t =>
    show EInactive uid (Express.logout s t).2
    exact ⟨hu, EInactive_sessions_filter hs⟩
  | createUser nm e r a i =>
    show EInactive uid (Express.createUser s nm e r a i).2
    refine ⟨?_, hs⟩
    intro x hx hid
    rcases List.mem_append.mp hx with hx | hx
    · exact hu x hx hid
    · have hxe := List.eq_of_mem_singleton hx
      subst hxe
      exact absurd hid hfresh
  | updateUserRole i r =>
    show EInactive uid (Express.updateUserRole s i r).2
    cases hfind : s.users.find? (fun u => u.id == i) with
    | none =>
      simp only [Express.updateUserRole, hfind]
      exact ⟨hu, hs⟩
    | some u =>
      simp only [Express.updateUserRole, hfind]
      exact ⟨inactive_setFirst_generic (fun u : Express.EUser => u.id)
        (fun u : Express.EUser => u.isActive) hu (fun y => ⟨rfl, fun hb => hb⟩), hs⟩
  | deactivateUser i =>
    show EInactive uid (Express.deactivateUser s i).2
    cases hfind : s.users.find? (fun u => u.id == i) with
    | none =>
      simp only [Express.deactivateUser, hfind]
      exact ⟨hu, hs⟩
    | some u =>
      simp only [Express.deactivateUser, hfind]
      exact ⟨inactive_setFirst_generic (fun u : Express.EUser => u.id)
        (fun u : Express.EUser => u.isActive) hu (fun y => ⟨rfl, fun hb => by cases hb⟩),
        EInactive_sessions_filter hs⟩
  | changePassword i p =>
    show EInactive uid (Express.changePassword s i p).2
    cases hfind : s.users.find? (fun u => u.id == i) with
    | none =>
      simp only [Express.changePassword, hfind]
      exact ⟨hu, hs⟩
    | some u =>
      simp only [Express.changePassword, hfind]
      exact ⟨hu, hs⟩
  | updateProfile i nm e =>
    show EInactive uid (Express.updateProfile s i nm e).2
    cases hfind : s.users.find? (fun u => u.id == i) with
    | none =>
      simp only [Express.updateProfile, hfind]
      exact ⟨hu, hs⟩
    | some u =>
      simp only [Express.updateProfile, hfind]
      split
      · split
        · exact ⟨hu, hs⟩
        · exact ⟨inactive_setFirst_generic (fun u : Express.EUser => u.id)
            (fun u : Express.EUser => u.isActive) hu (fun y => ⟨rfl, fun hb => hb⟩), hs⟩
      · exact ⟨inactive_setFirst_generic (fun u : Express.EUser => u.id)
          (fun u : Express.EUser => u.isActive) hu (fun y => ⟨rfl, fun hb => hb⟩), hs⟩
  | generateResetToken e n c =>
    show EInactive uid (Express.generateResetToken s e n c).2
    cases hfind : s.users.find? (fun u => u.email == e && u.isActive) with
    | none =>
      simp only [Express.generateResetToken, hfind]
      exact ⟨hu, hs⟩
    | some u =>
      simp only [Express.generateResetToken, hfind]
      exact ⟨hu, hs⟩
  | verifyResetToken t e n =>
    show EInactive uid (Express.verifyResetToken s t e n).2
    cases hfind : s.resetTokens.find?
        (fun x => x.token == t && x.email == e && !x.used) with
    | none =>
      simp only [Express.verifyResetToken, hfind]
      exact ⟨hu, hs⟩
    | some rt =>
      simp only [Express.verifyResetToken, hfind]
      split
      · exact ⟨hu, hs⟩
      · exact ⟨hu, hs⟩
  | resetPasswordWithToken t e p n =>
    show EInactive uid (Express.resetPasswordWithToken s t e p n).2
    cases hfind : s.resetTokens.find?
        (fun x => x.token == t && x.email == e && !x.used) with
    | none =>
      simp only [Express.resetPasswordWithToken, hfind]
      exact ⟨hu, hs⟩
    | some rt =>
      simp only [Express.resetPasswordWithToken, hfind]
      split
      · exact ⟨hu, hs⟩
      · cases hf2 : s.users.find? (fun u => u.email == e && u.isActive) with
        | none =>
          simp only [hf2]
          exact ⟨hu, hs⟩
        | some u =>
          simp only [hf2]
          exact ⟨hu, hs⟩
  | cleanExpiredTokens n =>
    show EInactive uid (Express.cleanExpiredTokens s n)
    exact ⟨hu, hs⟩

theorem EInactive_foldl {uid : String} {ops : List EOp} {s : Express.St}
    (h : EInactive uid s) (hfresh : ∀ op ∈ ops, op.freshFor uid) :
    EInactive uid (ops.foldl EStep s) := by
  induction ops generalizing s with
  | nil => exact h
  | cons op ops ih =>
    exact ih (EInactive_step h (hfresh op (List.mem_cons_self op ops)))
      (fun o ho => hfresh o (List.mem_cons_of_mem op ho))

theorem EInactive_after_deactivate {s : Express.St} {uid : String}
    (hnodup : (s.users.map (fun u => u.id)).Nodup)
    (hsucc : (Express.deactivateUser s uid).1 = true) :
    EInactive uid (Express.deactivateUser s uid).2 := by
  cases hfind : s.users.find? (fun u => u.id == uid) with
  | none =>
    exfalso
    rw [Express.deactivateUser] at hsucc
    simp only [hfind] at hsucc
    cases hsucc
  | some u =>
    simp only [Express.deactivateUser, hfind]
    constructor
    · intro x hx hid
      exact inactive_after_setFirst_deactivate (fun u : Express.EUser => u.id)
        (fun u : Express.EUser => u.isActive)
        (fun v : Express.EUser => { v with isActive := false })
        hnodup (fun y => ⟨rfl, rfl⟩) x hx hid
    · intro q hq
      have := List.of_mem_filter hq
      exact of_decide_eq_true this

theorem verifyToken_ne_of_EInactive {s : Express.St} {uid : String}
    (h : EInactive uid s) (tok : String) :
    (Express.verifyToken s tok).map (fun au => au.id) ≠ some uid := by
  cases hv : Express.verifyToken s tok with
  | none => simp
  | some au =>
    have hne := h.2 (tok, au) (mem_of_lookup_eq_some hv)
    show some au.id ≠ some uid
    intro hcontra
    exact hne (Option.some_inj.mp hcontra)

/-- C4: once `deactivateUser` succeeds for a user, no bearer token of that
user authenticates again, whatever further requests the service processes
(assuming unique record ids and fresh ids for later creations): in the
token-verifying Mongo variant every `getUserByToken` with a token carrying
that user id answers `none`, and in the session-directory variant
`verifyToken` never again answers an identity with that user id. -/
theorem C4_deactivation_invalidates_tokens :
    (∀ (db : Mongo.Db) (uid : Nat) (now : Nat) (ops : List MOp) (st : SignedToken)
      (later : Nat),
      (db.map (fun u => u.id)).Nodup →
      (Mongo.deactivateUser db uid now).1 = true →
      (∀ op ∈ ops, op.freshFor uid) →
      st.payload.userId = uid →
      Mongo.getUserByToken (ops.foldl MStep (Mongo.deactivateUser db uid now).2)
        (some st) later = none) ∧
    (∀ (s : Express.St) (uid : String) (ops : List EOp) (tok : String),
      (s.users.map (fun u => u.id)).Nodup →
      (Express.deactivateUser s uid).1 = true →
      (∀ op ∈ ops, op.freshFor uid) →
      (Express.verifyToken (ops.foldl EStep (Express.deactivateUser s uid).2) tok).map
        (fun au => au.id) ≠ some uid) := by
  constructor
  · intro db uid now ops st later hnodup hsucc hfresh hst
    exact getUserByToken_none_of_MInactive
      (MInactive_foldl (MInactive_after_deactivate hnodup hsucc) hfresh) st hst later
  · intro s uid ops tok hnodup hsucc hfresh
    exact verifyToken_ne_of_EInactive
      (EInactive_foldl (EInactive_after_deactivate hnodup hsucc) hfresh) tok

/-- C4 witness: deactivate Bob (id 1 resp. `"1"`), run further requests
(an admin login and a user creation resp. a logout), then present Bob's
old credentials — the JWT for user 1 and the session token `tokB` — and
authentication fails in both variants. -/
theorem C4_deactivation_invalidates_tokens_witness :
    Mongo.getUserByToken
      ([MOp.login "admin@x.com" "a" 4,
        MOp.createUser "Eve" "eve@x.com" .user "tp" 7 5].foldl MStep
        (Mongo.deactivateUser C4db 1 3).2) (some (jwtSign jwtSecret 1 0)) 5 = none ∧
    (Express.verifyToken
      ([EOp.logout "other"].foldl EStep (Express.deactivateUser C4st "1").2)
      "tokB").map (fun au => au.id) ≠ some "1" := by
  constructor
  · apply C4_deactivation_invalidates_tokens.1 C4db 1 3 _ (jwtSign jwtSecret 1 0) 5
    · decide
    · rfl
    · intro op hop
      fin_cases hop
      · exact trivial
      · show (7 : Nat) ≠ 1
        decide
    · rfl
  · apply C4_deactivation_invalidates_tokens.2 C4st "1" [EOp.logout "other"] "tokB"
    · decide
    · rfl
    · intro op hop
      fin_cases hop
      exact trivial
